import Mathlib

/-!
Verification development for the pyboard-serial-com device session
orchestrator (src/pyboardRunner.ts, src/utils.ts).

Strings are modelled as `List Char`; JavaScript string methods used by the
source are given faithful counterparts below (`replace` removes the first
occurrence, `replaceAll` every occurrence, `split` keeps empty fields, ...).
Buffers hold UTF-8 text, so `Buffer.concat` is list append and
`Buffer.includes` is substring containment on the decoded text.
-/

namespace PySerial

/-- JS `s.startsWith(pat)` on decoded text. -/
def startsWithL : List Char → List Char → Bool
  | _, [] => true
  | [], _ :: _ => false
  | c :: s, p :: ps => c == p && startsWithL s ps

/-- JS `s.includes(pat)` / `Buffer.includes`: substring containment. -/
def containsSub : List Char → List Char → Bool
  | [], pat => pat == []
  | c :: s, pat => startsWithL (c :: s) pat || containsSub s pat

/-- JS `s.replace(pat, "")`: remove the first occurrence of `pat` (the
source only ever replaces with the empty string). -/
def removeFirst (pat : List Char) : List Char → List Char
  | [] => []
  | c :: s =>
    if startsWithL (c :: s) pat then (c :: s).drop pat.length
    else c :: removeFirst pat s

/-- JS `s.replaceAll(pat, "")` for a single-character pattern (the source
only uses it with "\r" and "\n"). -/
def removeAllChar (ch : Char) (s : List Char) : List Char :=
  s.filter (fun c => c != ch)

/-- JS `s.split(sep)` for a single-character separator: keeps empty fields,
`"".split(sep) = [""]`. -/
def splitOnChar (sep : Char) : List Char → List (List Char)
  | [] => [[]]
  | c :: rest =>
    let r := splitOnChar sep rest
    if c == sep then [] :: r
    else
      match r with
      | h :: t => (c :: h) :: t
      | [] => [[c]]

/-- JS `s.endsWith(suffix)`. -/
def endsWithL (s suffix : List Char) : Bool :=
  startsWithL s.reverse suffix.reverse

/-- JS `s.trimStart()`. -/
def trimStartL (s : List Char) : List Char :=
  s.dropWhile Char.isWhitespace

/-- JS `s.trimEnd()`. -/
def trimEndL (s : List Char) : List Char :=
  (s.reverse.dropWhile Char.isWhitespace).reverse

/-- JS `s.trim()`. -/
def trimL (s : List Char) : List Char :=
  trimEndL (trimStartL s)

/-- Numeric value of a decimal digit run (most significant first). -/
def digitsVal (ds : List Char) : Nat :=
  ds.foldl (fun a c => 10 * a + (c.toNat - 48)) 0

/-- Hexadecimal digit recognizer (0-9, a-f, A-F). -/
def isHexDigitC (c : Char) : Bool :=
  c.isDigit || (97 ≤ c.toNat && c.toNat ≤ 102) || (65 ≤ c.toNat && c.toNat ≤ 70)

/-- Numeric value of a hexadecimal digit run. -/
def hexDigitsVal (ds : List Char) : Nat :=
  ds.foldl (fun a c =>
    16 * a +
      (if c.isDigit then c.toNat - 48
       else if c.toNat ≥ 97 then c.toNat - 87
       else c.toNat - 55)) 0

/-- Digit-run prefix parse used by `jsParseInt`: the value of the maximal
leading decimal digit run, `none` when there is none (JS `NaN`). -/
def parseDigitsPrefix (s : List Char) : Option Nat :=
  let ds := s.takeWhile Char.isDigit
  if ds.isEmpty then none else some (digitsVal ds)

/-- Hex-run prefix parse for the `0x` branch of `jsParseInt`. -/
def parseHexPrefix (s : List Char) : Option Nat :=
  let ds := s.takeWhile isHexDigitC
  if ds.isEmpty then none else some (hexDigitsVal ds)

/-- JS `parseInt(s)` (radix auto-detected): skip leading whitespace, an
optional sign, then `0x`/`0X` hexadecimal or the maximal decimal digit run;
`none` models `NaN`. -/
def jsParseInt (s : List Char) : Option Int :=
  let s := s.dropWhile Char.isWhitespace
  let core : List Char → Option Nat := fun t =>
    match t with
    | '0' :: 'x' :: rest => parseHexPrefix rest
    | '0' :: 'X' :: rest => parseHexPrefix rest
    | t => parseDigitsPrefix t
  match s with
  | '-' :: rest => (core rest).map (fun n => -(n : Int))
  | '+' :: rest => (core rest).map (fun n => (n : Int))
  | s => (core s).map (fun n => (n : Int))

/-! Protocol delimiter tokens (pyboardRunner.ts lines 25-27 and inline
literals). -/

def EOOtok : List Char := "!!EOO!!".toList

def ERRtok : List Char := "!!ERR!!".toList

def SENTINELtok : List Char := "!!__SENTINEL__!!".toList

def JSONDECODEtok : List Char := "!!JSONDecodeError!!".toList

def SIMPLEtok : List Char := "!!SIMPLE_AUTO_COMP!!".toList

/-- `cleanBuffer` (pyboardRunner.ts lines 116-125): six chained JS
`replace` calls, each removing only the first occurrence. -/
def cleanBuffer (buffer : List Char) : List Char :=
  removeFirst JSONDECODEtok
    (removeFirst (JSONDECODEtok ++ ['\n'])
      (removeFirst (JSONDECODEtok ++ ['\r', '\n'])
        (removeFirst EOOtok
          (removeFirst (EOOtok ++ ['\n'])
            (removeFirst (EOOtok ++ ['\r', '\n']) buffer)))))

/-! ## RTC datetime conversion (src/utils.ts) -/

/-- Decimal digit character for `n < 10`. -/
def digitChar (n : Nat) : Char :=
  Char.ofNat (48 + n)

/-- Fueled little-endian digit accumulation; `natToStr` supplies enough
fuel, so the zero-fuel branch is never reached on its calls. -/
def natToStrAux : Nat → Nat → List Char → List Char
  | 0, _, acc => acc
  | fuel + 1, n, acc =>
    let acc := digitChar (n % 10) :: acc
    if n < 10 then acc else natToStrAux fuel (n / 10) acc

/-- JS number-to-string conversion for a non-negative integer, as performed
by the template literal in `dateToRp2Datetime`. -/
def natToStr (n : Nat) : List Char :=
  natToStrAux (n + 1) n []

/-- Sakamoto day-of-week (0 = Sunday), modelling JS `Date.prototype.getDay`
on a proleptic-Gregorian civil date. -/
def jsGetDay (y m d : Nat) : Nat :=
  let y := if m < 3 then y - 1 else y
  let t := [0, 3, 2, 5, 0, 3, 5, 1, 4, 6, 2, 4]
  (y + y / 4 - y / 100 + y / 400 + t.getD (m - 1) 0 + d) % 7

/-- Civil time carried by a JS `Date` in local time: the values returned by
`getFullYear`, `getMonth() + 1`, `getDate`, `getHours`, `getMinutes`,
`getSeconds`, `getMilliseconds`. The model covers non-negative years
(`Date` years 0-275760); `getDay` is computed by `jsGetDay`. -/
structure CivilTime where
  year : Nat
  month : Nat
  day : Nat
  hour : Nat
  minute : Nat
  second : Nat
  ms : Nat
deriving DecidableEq

/-- The argument tuple of the `new Date(year, monthIndex, day, hour, minute,
second)` call performed by `rp2DatetimeToDate`. For in-range arguments the
JS constructor performs no normalization, so this record determines the
resulting `Date` (milliseconds 0, i.e. the civil time truncated to
seconds); out-of-range arguments (e.g. day 31 in February) are normalized
by JS into the following month, still yielding a non-null `Date`. -/
structure Rp2CtorArgs where
  yearArg : Nat
  monthIndexArg : Nat
  dayArg : Nat
  hourArg : Nat
  minuteArg : Nat
  secondArg : Nat
deriving DecidableEq

/-- `dateToRp2Datetime` (utils.ts lines 70-83): renders
`(year, month, day, getDay, hour, minute, second, 0)` via a template
literal. -/
def dateToRp2Datetime (t : CivilTime) : List Char :=
  '(' :: natToStr t.year ++
  ',' :: ' ' :: natToStr t.month ++
  ',' :: ' ' :: natToStr t.day ++
  ',' :: ' ' :: natToStr (jsGetDay t.year t.month t.day) ++
  ',' :: ' ' :: natToStr t.hour ++
  ',' :: ' ' :: natToStr t.minute ++
  ',' :: ' ' :: natToStr t.second ++
  ',' :: ' ' :: '0' :: ')' :: []

/-- One numeric field of the RTC tuple regex: a maximal decimal digit run
whose length lies in `[lo, hi]`, returning its value and the rest of the
input. Because the regex follows each `\d` quantifier with a non-digit
literal (`,` or `)`), its backtracking semantics coincide with this
maximal-run reading. -/
def parseNumField (lo hi : Nat) (s : List Char) : Option (Nat × List Char) :=
  let ds := s.takeWhile Char.isDigit
  if lo ≤ ds.length && ds.length ≤ hi then
    some (digitsVal ds, s.dropWhile Char.isDigit)
  else none

/-- Literal character of the regex. -/
def parseLit (c : Char) : List Char → Option (List Char)
  | [] => none
  | x :: rest => if x == c then some rest else none

/-- The `,\s*` separator of the regex (`\s*` is a maximal whitespace run;
whitespace and digits are disjoint, so greediness is deterministic). -/
def parseCommaSpaces (s : List Char) : Option (List Char) :=
  (parseLit ',' s).map (fun r => r.dropWhile Char.isWhitespace)

/-- Anchored match of one line against the `rp2DatetimeToDate` regex
`^\((\d{4}),\s*(\d{1,2}),\s*(\d{1,2}),\s*(\d{1,2}),\s*(\d{1,2}),\s*(\d{1,2}),\s*(\d{1,2}),\s*(?:\d{1,2})\)$`,
returning the seven captured numbers (year, month, day, weekday, hour,
minute, second). -/
def parseSepField (s : List Char) : Option (Nat × List Char) :=
  match parseCommaSpaces s with
  | none => none
  | some s => parseNumField 1 2 s

/-- End of the regex: the closing `)` followed by the `$` anchor. -/
def parseClose (s : List Char) : Bool :=
  match parseLit ')' s with
  | none => false
  | some s => s.isEmpty

def matchRp2Line (s : List Char) : Option (Nat × Nat × Nat × Nat × Nat × Nat × Nat) :=
  (parseLit '(' s).bind fun s =>
  (parseNumField 4 4 s).bind fun ys =>
  (parseSepField ys.2).bind fun mos =>
  (parseSepField mos.2).bind fun ds =>
  (parseSepField ds.2).bind fun wds =>
  (parseSepField wds.2).bind fun hs =>
  (parseSepField hs.2).bind fun mis =>
  (parseSepField mis.2).bind fun ss =>
  (parseSepField ss.2).bind fun ls =>
  if parseClose ls.2 then
    some (ys.1, mos.1, ds.1, wds.1, hs.1, mis.1, ss.1)
  else none

/-- `rp2DatetimeToDate` (utils.ts lines 35-62). The regex has the `gm`
flags, so `exec` returns the first newline-separated line that matches the
anchored pattern; the captured fields are then range-checked (month 1-12,
day 1-31, hour 0-23, minute 0-59, second 0-59 - the year and the weekday
are not checked, and day 31 is accepted for every month) and fed to
`new Date(year, month - 1, day, hour, minute, second)`. `none` models the
`null` return. -/
def rp2DatetimeToDate (datetime : List Char) : Option Rp2CtorArgs :=
  match (splitOnChar '\n' datetime).findSome? matchRp2Line with
  | none => none
  | some (year, month, day, _, hour, minute, second) =>
    if month < 1 || month > 12 || day < 1 || day > 31 ||
        hour > 23 || minute > 59 || second > 59 then
      none
    else
      some ⟨year, month - 1, day, hour, minute, second⟩

/-! ## Typed results (src/pyout.ts) -/

/-- A parsed file record (src/pyfileData.ts). `size` is JS `parseInt` of
the size field; `none` models `NaN`. -/
structure PyFile where
  path : List Char
  isDir : Bool
  size : Option Int
deriving DecidableEq

/-- The `PyOut` result variants returned to callers (src/pyout.ts),
restricted to the payloads the modelled operations produce. -/
inductive PyOutM where
  | none
  | commandResult (result : Bool)
  | commandWithResponse (response : List Char)
  | status (status : Bool)
  | listContents (response : List PyFile)
  | tabComp (isSimple : Bool) (completion : List Char)
  | rtcTime (time : Option Rp2CtorArgs)
  | portsScan (ports : List (List Char))
deriving DecidableEq

/-! ## Stdout consumer, command-like kinds (pyboardRunner.ts lines 509-633)

One `data` event of the stdout listener registered by `runCommand` for the
kinds `command`, `friendlyCommand`, `retrieveTabComp`, `runFile`, `ctrlD`.
`prev` is the session's `outBuffer` before the event, `data` the chunk; the
handler first appends (`Buffer.concat`), then processes only when the chunk
contains a newline or the kind streams character-by-character
(`friendlyCommand`, interactive `command`, `runFile`). -/

/-- Continuation of a command-like operation after one `data` event. -/
inductive CmdRes where
  /-- No resolution yet; the session's `outBuffer` now holds this value. -/
  | pending (buffer : List Char)
  /-- `!!EOO!!` seen: the operation resolves with `r`, the buffer is
  flushed, the next queued operation is dispatched. -/
  | finished (r : PyOutM)
  /-- `!!ERR!!` seen in the chunk: `disconnect(true)` is triggered and the
  operation resolves with `r`. -/
  | errHalt (r : PyOutM)
deriving DecidableEq

/-- Observable effects of one `data` event. -/
structure CmdStepOut where
  /-- Strings passed to the `follow` progress callback, in order. -/
  followCalls : List (List Char)
  /-- Whether a `\n` was written to helper stdin (sentinel handling). -/
  wroteNewline : Bool
  res : CmdRes
deriving DecidableEq

/-- Lines 578-618: the `data.includes(EOO)` completion branch shared by the
command-like kinds, operating on chunk `data` and buffer `buf` (after any
sentinel stripping). -/
def commandEooFinish (isTabComp hasFollow : Bool) (data buf : List Char) :
    List (List Char) × PyOutM :=
  let followCalls :=
    if trimL data != EOOtok && hasFollow then [cleanBuffer buf] else []
  let r :=
    if hasFollow then PyOutM.commandResult true
    else if isTabComp then
      let cleanBuf := cleanBuffer buf
      let isSimple := containsSub cleanBuf SIMPLEtok
      PyOutM.tabComp isSimple
        (if isSimple then removeFirst ['\n'] (cleanBuf.drop 20) else cleanBuf)
    else PyOutM.commandWithResponse (cleanBuffer buf)
  (followCalls, r)

/-- Lines 578-631 continued: after the sentinel/ERR checks, the handler
either completes on `!!EOO!!`, or streams the cleaned buffer to `follow`
(flushing the buffer), or retains the buffer. -/
def commandAfterChecks (isTabComp hasFollow wrote : Bool) (data buf : List Char) :
    CmdStepOut :=
  if containsSub data EOOtok then
    let (fc, r) := commandEooFinish isTabComp hasFollow data buf
    ⟨fc, wrote, CmdRes.finished r⟩
  else if hasFollow then ⟨[cleanBuffer buf], wrote, CmdRes.pending []⟩
  else ⟨[], wrote, CmdRes.pending buf⟩

/-- One `data` event for a command-like kind. `alwaysProcess` is true for
`friendlyCommand`, interactive `command` and `runFile`, which are processed
even without a newline in the chunk. The source checks
`data.includes(SENTINEL) || outBuffer.includes(SENTINEL)`; since `data` is
a suffix of the concatenated buffer this equals the buffer check alone.
The `!!ERR!!` check is on the chunk only. -/
def commandDataStep (isTabComp alwaysProcess hasFollow : Bool)
    (prev data : List Char) : CmdStepOut :=
  let buf := prev ++ data
  if !(containsSub data ['\n'] || alwaysProcess) then
    ⟨[], false, CmdRes.pending buf⟩
  else if containsSub buf SENTINELtok then
    commandAfterChecks isTabComp hasFollow true data (removeFirst SENTINELtok buf)
  else if containsSub data ERRtok then
    if hasFollow then ⟨[ERRtok], false, CmdRes.errHalt (PyOutM.commandResult true)⟩
    else ⟨[], false, CmdRes.errHalt (PyOutM.commandWithResponse (cleanBuffer buf))⟩
  else commandAfterChecks isTabComp hasFollow false data buf

/-! ## Stdout consumer, listContents (pyboardRunner.ts lines 635-678) -/

/-- One listing line: `line.trimStart().split(" ")` must give exactly two
fields `[size, path]`; other lines are skipped. `isDir` is
`path.endsWith("/")`, `size` is `parseInt(size)`. -/
def parseListLine (line : List Char) : Option PyFile :=
  match splitOnChar ' ' (trimStartL line) with
  | [sz, p] => some ⟨p, endsWithL p ['/'], jsParseInt sz⟩
  | _ => none

/-- Lines 641-669: on `!!EOO!!` the buffer is cut by `slice(0, -EOO.length)`,
carriage returns removed, split on newlines, and each line parsed. -/
def listContentsFinish (buf : List Char) : List PyFile :=
  ((splitOnChar '\n'
      (removeAllChar '\r' (buf.take (buf.length - EOOtok.length)))).filterMap
    parseListLine)

/-- One `data` event for `listContents` / `listContentsRecursive`: complete
on `!!EOO!!` in the chunk, otherwise retain the buffer. -/
def listContentsDataStep (prev data : List Char) : CmdRes :=
  let buf := prev ++ data
  if !containsSub data ['\n'] then CmdRes.pending buf
  else if containsSub data EOOtok then
    CmdRes.finished (PyOutM.listContents (listContentsFinish buf))
  else CmdRes.pending buf

/-! ## Stdout consumer, fs-mutation kinds (pyboardRunner.ts lines 680-759) -/

/-- Lines 688-701: on `!!EOO!!` the result for `uploadFiles`,
`downloadFiles`, `deleteFiles`, `createFolders`, `deleteFolders`,
`deleteFolderRecursive`, `deleteFileOrFolder` and `syncRtc` is
`status = if buffer has !!ERR!! then buffer has "EXIST" else true`. -/
def fsOpFinish (buf : List Char) : PyOutM :=
  PyOutM.status
    (if containsSub buf ERRtok then containsSub buf "EXIST".toList else true)

/-- One `data` event for an fs-mutation kind with `verbose`/`follow` unset
(the JSON progress branch at lines 702-756 is then skipped and the buffer
is retained until `!!EOO!!`). -/
def fsOpDataStep (prev data : List Char) : CmdRes :=
  let buf := prev ++ data
  if !containsSub data ['\n'] then CmdRes.pending buf
  else if containsSub data EOOtok then CmdRes.finished (fsOpFinish buf)
  else CmdRes.pending buf

/-! ## Stdout consumer, getRtcTime (pyboardRunner.ts lines 898-924) -/

/-- Lines 903-918: if the buffer contains `!!ERR!!` the time is `null`;
otherwise the buffer with all CR and LF removed and the trailing
`!!EOO!!` sliced off is handed to `rp2DatetimeToDate`. -/
def getRtcTimeFinish (buf : List Char) : PyOutM :=
  if containsSub buf ERRtok then PyOutM.rtcTime none
  else
    let time := removeAllChar '\n' (removeAllChar '\r' buf)
    PyOutM.rtcTime (rp2DatetimeToDate (time.take (time.length - EOOtok.length)))

/-! ## Project sync (pyboardRunner.ts lines 1445-1459)

`uploadProject` runs after the `calcHashes` completion handler has
populated `remoteFileHashes`; the hash caches are JS `Map`s, modelled as
association lists with distinct keys whose order is insertion order. -/

/-- JS `Map.get` (and `Map.has` via `isSome`). -/
def lookupHash (m : List (List Char × List Char)) (k : List Char) :
    Option (List Char) :=
  (m.find? (fun p => p.fst == k)).map Prod.snd

/-- Node `path.join(projectRoot, file)` for a root without trailing
separator and a relative file name, as used to build the absolute local
upload paths. -/
def pathJoin (root file : List Char) : List Char :=
  root ++ '/' :: file

/-- What `uploadProject` does after the diff: either a call
`uploadFiles(files, ":", projectRoot, follow)` or the sentinel `None`
resolution. -/
inductive UploadProjectAction where
  | uploadFiles (files : List (List Char)) (target : List Char)
      (localBaseDir : List Char)
  | noneResult
deriving DecidableEq

/-- `uploadProject` (lines 1445-1459): filter the local keys whose remote
entry is missing or different, join each with the project root, and call
`uploadFiles` when non-empty, else resolve `None`. -/
def uploadProject (localHashes remoteHashes : List (List Char × List Char))
    (projectRoot : List Char) : UploadProjectAction :=
  let filesToUpload :=
    ((localHashes.map Prod.fst).filter (fun file =>
        !(lookupHash remoteHashes file).isSome ||
          lookupHash remoteHashes file != lookupHash localHashes file)).map
      (pathJoin projectRoot)
  if filesToUpload.length > 0 then
    UploadProjectAction.uploadFiles filesToUpload [':'] projectRoot
  else UploadProjectAction.noneResult

/-- The upload set in the words of the specification: every local path
whose `remoteHashes` entry is absent or differs from its local hash. -/
def specDiffFiles (localHashes remoteHashes : List (List Char × List Char)) :
    List (List Char) :=
  (localHashes.filter (fun p =>
      match lookupHash remoteHashes p.fst with
      | none => true
      | some h => h != p.snd)).map Prod.fst

/-! ## scanPorts (pyboardRunner.ts lines 241-282)

`getPorts` registers a stdout listener on a one-shot helper; each chunk
either resolves (when it contains `!!EOO!!`) or rejects the promise, and a
settled promise absorbs later calls. -/

/-- Lines 265-274: ports parsed from a single chunk - CRs removed, first
`!!EOO!!` removed, trimmed; empty means no ports. -/
def parsePortsChunk (data : List Char) : List (List Char) :=
  let dataStr := trimL (removeFirst EOOtok (removeAllChar '\r' data))
  if dataStr != [] then splitOnChar '\n' dataStr else []

/-- Settlement state of the `getPorts` promise. -/
inductive ScanOutcome where
  | pendingScan
  | resolved (ports : List (List Char))
  | rejected
deriving DecidableEq

/-- One stdout chunk of the scan helper (lines 259-280): an unsettled
promise resolves if the chunk contains `!!EOO!!` and rejects with
`Error("Invalid response")` otherwise; a settled promise is unchanged. -/
def getPortsStep (o : ScanOutcome) (data : List Char) : ScanOutcome :=
  match o with
  | ScanOutcome.pendingScan =>
    if containsSub data EOOtok then ScanOutcome.resolved (parsePortsChunk data)
    else ScanOutcome.rejected
  | o => o

/-- The promise outcome after a sequence of helper stdout chunks. -/
def getPortsRun (chunks : List (List Char)) : ScanOutcome :=
  chunks.foldl getPortsStep ScanOutcome.pendingScan

/-! ## Operation queue and session lifecycle (pyboardRunner.ts)

The queue subsystem: `runCommand` parks a waiter (`once` listener keyed
`nextOperation_<id>`) and appends the id to `operationQueue`;
`processNextOperation` shifts the head and emits its event; the woken
handler runs the operation. `resolvedNone` records every promise resolved
with the sentinel `None`; `parkedWaiters` the ids whose `once` listener is
still registered; `activeWaiter` an id whose unresolved `resolve` is held
by a registered stdout data listener. -/

/-- `OperationType` (pyboardRunner.ts lines 29-57). -/
inductive OperationType where
  | none | scanPorts | command | friendlyCommand | runFile | listContents
  | uploadFiles | downloadFiles | deleteFiles | createFolders | deleteFolders
  | deleteFolderRecursive | deleteFileOrFolder | calcHashes | getItemStat
  | renameItem | reset | syncRtc | getRtcTime | exit | checkStatus
  | retrieveTabComp | ctrlD
deriving DecidableEq

/-- Queue-visible session state. -/
structure Session where
  pipeConnected : Bool
  device : List Char
  operationQueue : List Nat
  parkedWaiters : List (Nat × OperationType)
  activeWaiter : Option Nat
  resolvedNone : List Nat
  operationOngoing : OperationType
  processingOperation : Bool
  idCounter : Nat
  runningOperation : Int
deriving DecidableEq

/-- Emitting `nextOperation_<id>` (the `once` handler at lines 464-499,
run synchronously by `emit`): with no listener the emit is a no-op; the
fired listener is deregistered; if an operation is already ongoing the
promise resolves `None` at once; an `exit` operation writes its request
and resolves `None`; any other kind becomes the ongoing operation and its
unresolved `resolve` moves into the stdout data listener. -/
def wakeOp (s : Session) (id : Nat) : Session :=
  match s.parkedWaiters.find? (fun p => p.fst == id) with
  | Option.none => s
  | Option.some pk =>
    let s := { s with
      parkedWaiters := s.parkedWaiters.filter (fun p => p.fst != id) }
    if s.operationOngoing != OperationType.none then
      { s with resolvedNone := s.resolvedNone ++ [id] }
    else if pk.snd == OperationType.exit then
      { s with resolvedNone := s.resolvedNone ++ [id] }
    else
      { s with operationOngoing := pk.snd, activeWaiter := Option.some id }

/-- `processNextOperation` (lines 1057-1073). -/
def processNextOperation (s : Session) : Session :=
  match s.operationQueue with
  | [] => { s with processingOperation := false }
  | op :: rest =>
    wakeOp
      { s with processingOperation := true, operationQueue := rest,
               runningOperation := (op : Int) } op

/-- `addOperation` (lines 1049-1055). -/
def addOperation (s : Session) (id : Nat) : Session :=
  let s := { s with operationQueue := s.operationQueue ++ [id] }
  if !s.processingOperation then processNextOperation s else s

/-- How a facade call returns: an immediate sentinel value, or a parked
operation awaiting the queue. -/
inductive FacadeCall where
  | immediate (r : PyOutM)
  | enqueuedOp (opId : Nat)
deriving DecidableEq

/-- The enqueue prefix of `runCommand` (lines 452-463 and 1035): a
disconnected pipe resolves `None` immediately; otherwise a fresh id is
drawn, its waiter parked, and the id appended to the queue. -/
def runCommandEnqueue (s : Session) (kind : OperationType) :
    FacadeCall × Session :=
  if !s.pipeConnected then (FacadeCall.immediate PyOutM.none, s)
  else
    let opId := s.idCounter
    let s := { s with idCounter := s.idCounter + 1,
                      parkedWaiters := s.parkedWaiters ++ [(opId, kind)] }
    (FacadeCall.enqueuedOp opId, addOperation s opId)

/-- `runFile` (lines 1495-1513): `fileExists` is `existsSync(file)` for the
local path argument. -/
def runFileCall (s : Session) (fileExists : Bool) : FacadeCall × Session :=
  if !s.pipeConnected || !fileExists then (FacadeCall.immediate PyOutM.none, s)
  else runCommandEnqueue s OperationType.runFile

/-- The synchronous prefix of graceful `disconnect()` (lines 1707-1716):
`runCommand({command: "exit"}, ...)` is entered and enqueues the exit
operation; the 500 ms grace wait and conditional kill suspend until after
`switchDevice` has returned. -/
def gracefulDisconnectStart (s : Session) : Session :=
  (runCommandEnqueue s OperationType.exit).snd

/-- `switchDevice` (lines 362-395). With the pipe connected and a new
device id, `disconnect()` is started (not awaited), the child is killed,
and - when the queue is non-empty - `removeAllListeners()` drops every
parked waiter and the queue is emptied; the remaining state fields are
reset and a new helper is spawned for the new device. No promise is
resolved anywhere on this path: `resolvedNone` is unchanged and the active
operation's `resolve`, held by the dead child's stdout listener, stays
unresolved. -/
def switchDevice (s : Session) (device : List Char) : Session :=
  if s.pipeConnected && s.device == device then s
  else
    let s := if s.pipeConnected then gracefulDisconnectStart s else s
    let s := { s with device := device }
    let s :=
      if s.operationQueue.length > 0 then
        { s with parkedWaiters := [], operationQueue := [] }
      else s
    { s with operationOngoing := OperationType.none, idCounter := 1,
             runningOperation := -1, processingOperation := false }

/-! ## Helper lemmas: decimal rendering -/

theorem natToStrAux_step (fuel n : Nat) (acc : List Char) :
    natToStrAux (fuel + 1) n acc =
      (if n < 10 then digitChar (n % 10) :: acc
       else natToStrAux fuel (n / 10) (digitChar (n % 10) :: acc)) := rfl

theorem natToStrAux_fuel_eq :
    ∀ f1 f2 n acc, n < 10 ^ (f1 + 1) → n < 10 ^ (f2 + 1) →
      natToStrAux (f1 + 1) n acc = natToStrAux (f2 + 1) n acc := by
  intro f1
  induction f1 with
  | zero =>
    intro f2 n acc h1 h2
    have hn : n < 10 := by simpa using h1
    rw [natToStrAux_step, natToStrAux_step, if_pos hn, if_pos hn]
  | succ g ih =>
    intro f2 n acc h1 h2
    conv_lhs => rw [natToStrAux_step]
    conv_rhs => rw [natToStrAux_step]
    by_cases hn : n < 10
    · rw [if_pos hn, if_pos hn]
    · rw [if_neg hn, if_neg hn]
      obtain ⟨g2, rfl⟩ : ∃ g2, f2 = g2 + 1 := by
        cases f2 with
        | zero => exact absurd (by simpa using h2) hn
        | succ k => exact ⟨k, rfl⟩
      have hd1 : n / 10 < 10 ^ (g + 1) := by
        rw [Nat.div_lt_iff_lt_mul (by norm_num)]
        calc n < 10 ^ (g + 1 + 1) := h1
        _ = 10 ^ (g + 1) * 10 := by ring
      have hd2 : n / 10 < 10 ^ (g2 + 1) := by
        rw [Nat.div_lt_iff_lt_mul (by norm_num)]
        calc n < 10 ^ (g2 + 1 + 1) := h2
        _ = 10 ^ (g2 + 1) * 10 := by ring
      exact ih g2 (n / 10) _ hd1 hd2

theorem natToStr_eq_fuel (f n : Nat) (h : n < 10 ^ (f + 1)) :
    natToStr n = natToStrAux (f + 1) n [] := by
  have hn : n < 10 ^ (n + 1) := by
    calc n < 10 ^ n := Nat.lt_pow_self (by norm_num) n
    _ ≤ 10 ^ (n + 1) := Nat.pow_le_pow_right (by norm_num) (by omega)
  exact natToStrAux_fuel_eq n f n [] hn h

theorem natToStr_one (n : Nat) (h : n < 10) : natToStr n = [digitChar n] := by
  rw [natToStr_eq_fuel 0 n (by simpa using h), natToStrAux_step, if_pos h,
    Nat.mod_eq_of_lt h]

theorem natToStr_two (n : Nat) (h1 : 10 ≤ n) (h2 : n < 100) :
    natToStr n = [digitChar (n / 10), digitChar (n % 10)] := by
  rw [natToStr_eq_fuel 1 n (by norm_num; omega), natToStrAux_step,
    if_neg (by omega), natToStrAux_step, if_pos (by omega),
    Nat.mod_eq_of_lt (by omega : n / 10 < 10)]

theorem natToStr_four (n : Nat) (h1 : 1000 ≤ n) (h2 : n < 10000) :
    natToStr n = [digitChar (n / 1000), digitChar (n / 100 % 10),
      digitChar (n / 10 % 10), digitChar (n % 10)] := by
  rw [natToStr_eq_fuel 3 n (by norm_num; omega), natToStrAux_step,
    if_neg (by omega), natToStrAux_step, if_neg (by omega),
    natToStrAux_step, if_neg (by omega : ¬ n / 10 / 10 < 10),
    natToStrAux_step, if_pos (by omega : n / 10 / 10 / 10 < 10),
    Nat.mod_eq_of_lt (by omega : n / 10 / 10 / 10 < 10)]
  have e1 : n / 10 / 10 / 10 = n / 1000 := by omega
  have e2 : n / 10 / 10 = n / 100 := by omega
  rw [e1, e2]

theorem digitChar_isDigit : ∀ k, k < 10 → (digitChar k).isDigit = true := by decide

theorem digitChar_toNat : ∀ k, k < 10 → (digitChar k).toNat = 48 + k := by decide

theorem digitChar_not_ws : ∀ k, k < 10 → (digitChar k).isWhitespace = false := by
  decide

theorem isDigit_ne_newline (c : Char) (h : c.isDigit = true) : c ≠ '\n' := by
  intro e
  subst e
  exact absurd h (by decide)

theorem isDigit_not_ws (c : Char) (h : c.isDigit = true) : c.isWhitespace = false := by
  by_contra hw
  rw [Bool.not_eq_false] at hw
  have hd : c = ' ' ∨ c = '\t' ∨ c = '\r' ∨ c = '\n' := by
    revert hw
    simp [Char.isWhitespace]
    tauto
  rcases hd with rfl | rfl | rfl | rfl <;> exact absurd h (by decide)

theorem natToStrAux_all_digits :
    ∀ fuel n acc, (∀ c ∈ acc, c.isDigit = true) →
      ∀ c ∈ natToStrAux fuel n acc, c.isDigit = true := by
  intro fuel
  induction fuel with
  | zero => intro n acc hacc c hc; exact hacc c hc
  | succ g ih =>
    intro n acc hacc c hc
    rw [natToStrAux_step] at hc
    by_cases hn : n < 10
    · rw [if_pos hn] at hc
      rcases List.mem_cons.mp hc with rfl | hmem
      · exact digitChar_isDigit _ (Nat.mod_lt n (by norm_num))
      · exact hacc c hmem
    · rw [if_neg hn] at hc
      refine ih (n / 10) _ ?_ c hc
      intro d hd
      rcases List.mem_cons.mp hd with rfl | hmem
      · exact digitChar_isDigit _ (Nat.mod_lt n (by norm_num))
      · exact hacc d hmem

theorem natToStr_all_digits (n : Nat) : ∀ c ∈ natToStr n, c.isDigit = true :=
  natToStrAux_all_digits (n + 1) n [] (by intro c hc; cases hc)

theorem digitsVal_one (a : Nat) (ha : a < 10) : digitsVal [digitChar a] = a := by
  simp [digitsVal, digitChar_toNat a ha]

theorem digitsVal_two (a b : Nat) (ha : a < 10) (hb : b < 10) :
    digitsVal [digitChar a, digitChar b] = 10 * a + b := by
  simp [digitsVal, digitChar_toNat a ha, digitChar_toNat b hb]

theorem digitsVal_four (a b c d : Nat) (ha : a < 10) (hb : b < 10)
    (hc : c < 10) (hd : d < 10) :
    digitsVal [digitChar a, digitChar b, digitChar c, digitChar d] =
      1000 * a + 100 * b + 10 * c + d := by
  simp [digitsVal, digitChar_toNat a ha, digitChar_toNat b hb,
    digitChar_toNat c hc, digitChar_toNat d hd]
  ring

theorem digitsVal_natToStr_small (n : Nat) (h : n < 100) :
    digitsVal (natToStr n) = n := by
  by_cases h1 : n < 10
  · rw [natToStr_one n h1, digitsVal_one n h1]
  · rw [natToStr_two n (by omega) h, digitsVal_two _ _ (by omega)
      (Nat.mod_lt n (by norm_num))]
    omega

theorem digitsVal_natToStr_year (n : Nat) (h1 : 1000 ≤ n) (h2 : n < 10000) :
    digitsVal (natToStr n) = n := by
  rw [natToStr_four n h1 h2, digitsVal_four _ _ _ _ (by omega)
    (Nat.mod_lt _ (by norm_num)) (Nat.mod_lt _ (by norm_num))
    (Nat.mod_lt _ (by norm_num))]
  omega

theorem natToStr_length_small (n : Nat) (h : n < 100) :
    1 ≤ (natToStr n).length ∧ (natToStr n).length ≤ 2 := by
  by_cases h1 : n < 10
  · rw [natToStr_one n h1]; simp
  · rw [natToStr_two n (by omega) h]; simp

theorem natToStr_length_year (n : Nat) (h1 : 1000 ≤ n) (h2 : n < 10000) :
    (natToStr n).length = 4 := by
  rw [natToStr_four n h1 h2]; rfl

theorem natToStr_three (n : Nat) (h1 : 100 ≤ n) (h2 : n < 1000) :
    natToStr n = [digitChar (n / 100), digitChar (n / 10 % 10),
      digitChar (n % 10)] := by
  rw [natToStr_eq_fuel 2 n (by norm_num; omega), natToStrAux_step,
    if_neg (by omega), natToStrAux_step, if_neg (by omega),
    natToStrAux_step, if_pos (by omega : n / 10 / 10 < 10),
    Nat.mod_eq_of_lt (by omega : n / 10 / 10 < 10)]
  have e : n / 10 / 10 = n / 100 := by omega
  rw [e]

theorem natToStr_head_digit (n : Nat) (h : n < 10000) :
    ∃ k t, k < 10 ∧ natToStr n = digitChar k :: t := by
  by_cases h1 : n < 10
  · exact ⟨n, [], h1, natToStr_one n h1⟩
  · by_cases h2 : n < 100
    · exact ⟨n / 10, [digitChar (n % 10)], by omega,
        natToStr_two n (by omega) h2⟩
    · by_cases h3 : n < 1000
      · exact ⟨n / 100, [digitChar (n / 10 % 10), digitChar (n % 10)],
          by omega, natToStr_three n (by omega) h3⟩
      · exact ⟨n / 1000, [digitChar (n / 100 % 10), digitChar (n / 10 % 10),
          digitChar (n % 10)], by omega, natToStr_four n (by omega) h⟩

/-! ## Helper lemmas: regex model -/

theorem takeWhile_append_all (p : Char → Bool) :
    ∀ (l r : List Char), (∀ c ∈ l, p c = true) →
      (l ++ r).takeWhile p = l ++ r.takeWhile p := by
  intro l
  induction l with
  | nil => intro r _; simp
  | cons c t ih =>
    intro r hl
    rw [List.cons_append, List.takeWhile_cons,
      if_pos (hl c (List.mem_cons_self c t)), ih r
        (fun d hd => hl d (List.mem_cons_of_mem c hd)), List.cons_append]

theorem dropWhile_append_all (p : Char → Bool) :
    ∀ (l r : List Char), (∀ c ∈ l, p c = true) →
      (l ++ r).dropWhile p = r.dropWhile p := by
  intro l
  induction l with
  | nil => intro r _; simp
  | cons c t ih =>
    intro r hl
    rw [List.cons_append, List.dropWhile_cons,
      if_pos (hl c (List.mem_cons_self c t))]
    exact ih r (fun d hd => hl d (List.mem_cons_of_mem c hd))

theorem dropWhile_eq_self_of_takeWhile_nil (p : Char → Bool) (l : List Char)
    (h : l.takeWhile p = []) : l.dropWhile p = l := by
  cases l with
  | nil => rfl
  | cons c t =>
    rw [List.takeWhile_cons] at h
    by_cases hc : p c = true
    · rw [if_pos hc] at h; cases h
    · rw [List.dropWhile_cons, if_neg hc]

theorem takeWhile_digit_comma (l : List Char) :
    List.takeWhile Char.isDigit (',' :: l) = [] := by
  rw [List.takeWhile_cons, if_neg (by decide)]

theorem takeWhile_digit_close (l : List Char) :
    List.takeWhile Char.isDigit (')' :: l) = [] := by
  rw [List.takeWhile_cons, if_neg (by decide)]

theorem parseNumField_exact (lo hi : Nat) (ds rest : List Char)
    (hds : ∀ c ∈ ds, c.isDigit = true) (hlen1 : lo ≤ ds.length)
    (hlen2 : ds.length ≤ hi) (hrest : rest.takeWhile Char.isDigit = []) :
    parseNumField lo hi (ds ++ rest) = some (digitsVal ds, rest) := by
  unfold parseNumField
  rw [takeWhile_append_all Char.isDigit ds rest hds, hrest, List.append_nil,
    dropWhile_append_all Char.isDigit ds rest hds,
    dropWhile_eq_self_of_takeWhile_nil Char.isDigit rest hrest,
    if_pos (by simp [hlen1, hlen2])]

theorem parseNumField_year (y : Nat) (rest : List Char)
    (h1 : 1000 ≤ y) (h2 : y ≤ 9999)
    (hrest : rest.takeWhile Char.isDigit = []) :
    parseNumField 4 4 (natToStr y ++ rest) = some (y, rest) := by
  rw [parseNumField_exact 4 4 (natToStr y) rest (natToStr_all_digits y)
    (by rw [natToStr_length_year y h1 (by omega)])
    (by rw [natToStr_length_year y h1 (by omega)]) hrest,
    digitsVal_natToStr_year y h1 (by omega)]

theorem parseLit_cons (c : Char) (s : List Char) :
    parseLit c (c :: s) = some s := by
  simp [parseLit]

theorem parseSepField_render (n : Nat) (hn : n < 100) (rest : List Char)
    (hrest : rest.takeWhile Char.isDigit = []) :
    parseSepField (',' :: ' ' :: (natToStr n ++ rest)) = some (n, rest) := by
  unfold parseSepField parseCommaSpaces
  rw [parseLit_cons]
  simp only [Option.map_some']
  rw [List.dropWhile_cons, if_pos (by decide)]
  obtain ⟨k, t, hk, hshape⟩ := natToStr_head_digit n (by omega)
  have hstop : (natToStr n ++ rest).dropWhile Char.isWhitespace =
      natToStr n ++ rest := by
    rw [hshape, List.cons_append, List.dropWhile_cons,
      if_neg (by simp [digitChar_not_ws k hk])]
  rw [hstop, parseNumField_exact 1 2 (natToStr n) rest (natToStr_all_digits n)
    (natToStr_length_small n hn).1 (natToStr_length_small n hn).2 hrest,
    digitsVal_natToStr_small n hn]

theorem parseSepField_last :
    parseSepField (',' :: ' ' :: '0' :: ')' :: []) = some (0, [')']) := by decide

theorem jsGetDay_lt (y m d : Nat) : jsGetDay y m d < 7 :=
  Nat.mod_lt _ (by norm_num)

/-- The regex match succeeds on every rendered tuple whose year has four
digits and whose other fields have at most two, recovering the fields. -/
theorem matchRp2Line_render (t : CivilTime)
    (hy1 : 1000 ≤ t.year) (hy2 : t.year ≤ 9999)
    (hmo : t.month < 100) (hd : t.day < 100) (hh : t.hour < 100)
    (hmi : t.minute < 100) (hs : t.second < 100) :
    matchRp2Line (dateToRp2Datetime t) =
      some (t.year, t.month, t.day, jsGetDay t.year t.month t.day,
        t.hour, t.minute, t.second) := by
  unfold dateToRp2Datetime matchRp2Line
  simp only [List.cons_append, List.append_assoc]
  rw [parseLit_cons]
  simp only [Option.some_bind]
  rw [parseNumField_year t.year _ hy1 hy2 (takeWhile_digit_comma _)]
  simp only [Option.some_bind]
  rw [parseSepField_render t.month hmo _ (takeWhile_digit_comma _)]
  simp only [Option.some_bind]
  rw [parseSepField_render t.day hd _ (takeWhile_digit_comma _)]
  simp only [Option.some_bind]
  rw [parseSepField_render (jsGetDay t.year t.month t.day)
    (by have := jsGetDay_lt t.year t.month t.day; omega) _
    (takeWhile_digit_comma _)]
  simp only [Option.some_bind]
  rw [parseSepField_render t.hour hh _ (takeWhile_digit_comma _)]
  simp only [Option.some_bind]
  rw [parseSepField_render t.minute hmi _ (takeWhile_digit_comma _)]
  simp only [Option.some_bind]
  rw [parseSepField_render t.second hs _ (takeWhile_digit_comma _)]
  simp only [Option.some_bind]
  rw [parseSepField_last]
  simp only [Option.some_bind]
  rw [if_pos (by decide)]

theorem splitOnChar_single (sep : Char) :
    ∀ s : List Char, (∀ c ∈ s, c ≠ sep) → splitOnChar sep s = [s] := by
  intro s
  induction s with
  | nil => intro _; rfl
  | cons c t ih =>
    intro h
    unfold splitOnChar
    rw [ih (fun d hd => h d (List.mem_cons_of_mem c hd))]
    rw [if_neg (by simp [h c (List.mem_cons_self c t)])]

/-- Every character of a rendered tuple is a digit or one of the four
punctuation characters; in particular none is a newline. -/
theorem dateToRp2_no_newline (t : CivilTime) :
    ∀ c ∈ dateToRp2Datetime t, c ≠ '\n' := by
  intro c hc
  unfold dateToRp2Datetime at hc
  simp only [List.cons_append, List.append_assoc, List.mem_cons,
    List.mem_append, List.not_mem_nil, or_false] at hc
  rcases hc with rfl | h | rfl | rfl | h | rfl | rfl | h | rfl | rfl | h |
    rfl | rfl | h | rfl | rfl | h | rfl | rfl | h | rfl | rfl | rfl | rfl
  all_goals first
    | decide
    | exact isDigit_ne_newline c (natToStr_all_digits _ c h)

theorem findSomeSingle {α β : Type} (f : α → Option β) (a : α) :
    List.findSome? f [a] = f a := by
  rw [List.findSome?_cons]
  cases h : f a <;> simp

/-- The full parse-of-render fact: on a rendered tuple with a four-digit
year and in-range fields, `rp2DatetimeToDate` returns exactly the
constructor arguments of the original civil time (truncated to seconds). -/
theorem rp2DatetimeToDate_render (t : CivilTime)
    (hy1 : 1000 ≤ t.year) (hy2 : t.year ≤ 9999)
    (hmo1 : 1 ≤ t.month) (hmo2 : t.month ≤ 12)
    (hd1 : 1 ≤ t.day) (hd2 : t.day ≤ 31)
    (hh : t.hour ≤ 23) (hmi : t.minute ≤ 59) (hs : t.second ≤ 59) :
    rp2DatetimeToDate (dateToRp2Datetime t) =
      some ⟨t.year, t.month - 1, t.day, t.hour, t.minute, t.second⟩ := by
  unfold rp2DatetimeToDate
  rw [splitOnChar_single '\n' _ (dateToRp2_no_newline t), findSomeSingle,
    matchRp2Line_render t hy1 hy2 (by omega) (by omega) (by omega) (by omega)
      (by omega)]
  show (if t.month < 1 || t.month > 12 || t.day < 1 || t.day > 31 ||
      t.hour > 23 || t.minute > 59 || t.second > 59 then none
    else some (⟨t.year, t.month - 1, t.day, t.hour, t.minute,
      t.second⟩ : Rp2CtorArgs)) = _
  rw [if_neg (by simp only [Bool.or_eq_true, decide_eq_true_eq]; omega)]

/-! ## Helper lemmas: queue-free operations -/

theorem getPortsStep_absorb :
    ∀ (chunks : List (List Char)) (o : ScanOutcome), o ≠ ScanOutcome.pendingScan →
      chunks.foldl getPortsStep o = o := by
  intro chunks
  induction chunks with
  | nil => intro o _; rfl
  | cons c rest ih =>
    intro o ho
    rw [List.foldl_cons]
    have hstep : getPortsStep o c = o := by
      cases o with
      | pendingScan => exact absurd rfl ho
      | resolved ports => rfl
      | rejected => rfl
    rw [hstep]
    exact ih o ho

/-- JS `Map` lookup of a present key, given the keys are distinct. -/
theorem lookupHash_mem (l : List (List Char × List Char))
    (hnd : (l.map Prod.fst).Nodup) :
    ∀ p ∈ l, lookupHash l p.fst = some p.snd := by
  induction l with
  | nil => intro p hp; cases hp
  | cons q t ih =>
    intro p hp
    rcases List.mem_cons.mp hp with rfl | hmem
    · unfold lookupHash
      rw [List.find?_cons_of_pos _ (by simp)]
      rfl
    · have hne : q.fst ≠ p.fst := by
        intro e
        have : p.fst ∈ t.map Prod.fst := List.mem_map_of_mem Prod.fst hmem
        rw [← e] at this
        exact (List.nodup_cons.mp hnd).1 this
      unfold lookupHash
      rw [List.find?_cons_of_neg _ (by simp [hne])]
      exact ih (List.nodup_cons.mp hnd).2 p hmem

theorem uploadProject_filter_eq (l remote : List (List Char × List Char))
    (hnd : (l.map Prod.fst).Nodup) :
    ((l.map Prod.fst).filter (fun file =>
        !(lookupHash remote file).isSome ||
          lookupHash remote file != lookupHash l file)) =
      specDiffFiles l remote := by
  unfold specDiffFiles
  rw [List.filter_map]
  congr 1
  apply List.filter_congr
  intro p hp
  rw [Function.comp_apply, lookupHash_mem l hnd p hp]
  cases hr : lookupHash remote p.fst with
  | none => simp
  | some h => simp [bne]

/-! ## Claim theorems -/

/-- A session on COM3 with operation 1 active (its unresolved promise held
by the stdout listener) and operation 2 parked in the queue. -/
def sessionC1 : Session :=
  ⟨true, "COM3".toList, [2], [(2, OperationType.command)], some 1, [],
    OperationType.command, true, 3, 1⟩

/-- C1: the claim says `switchDevice(newId)` resolves every pending and
active waiter with the sentinel `None`. The code instead calls
`removeAllListeners()` and never resolves them: after the switch the
resolution log is unchanged (no promise was resolved with `None`), the
active operation's promise is still unresolved, and the parked waiter for
operation 2 has been dropped without firing. This contradicts the spec and
the source's own intent (its TODO notes the removal "will remove all
promissess, maybe infinity lock"). -/
theorem C1_switchDevice_leaves_waiters_unresolved :
    (switchDevice sessionC1 ("COM4".toList)).resolvedNone = [] ∧
    (switchDevice sessionC1 ("COM4".toList)).activeWaiter = some 1 ∧
    (switchDevice sessionC1 ("COM4".toList)).parkedWaiters = [] ∧
    (switchDevice sessionC1 ("COM4".toList)).operationQueue = [] := by decide

/-- The helper stream of scenario S2: an error during a `command`. -/
def s2Stream : List Char := "Traceback: ZeroDivisionError\n!!ERR!!\n!!EOO!!\n".toList

/-- C2 counterexample: on the spec's own S2 stream the completed command
operation returns a `CommandWithResponse` payload that still contains the
`!!ERR!!` delimiter, so delimiter purity fails as stated. -/
theorem C2_counterexample_err_in_payload :
    commandDataStep false false false [] s2Stream =
      ⟨[], false, CmdRes.errHalt (PyOutM.commandWithResponse
        ("Traceback: ZeroDivisionError\n!!ERR!!\n".toList))⟩ ∧
    containsSub ("Traceback: ZeroDivisionError\n!!ERR!!\n".toList) ERRtok =
      true := by decide

/-- C2 amended: `cleanBuffer` strips only `!!EOO!!` and
`!!JSONDecodeError!!` from returned payloads; `!!ERR!!` is retained. On the
S2 stream the error branch returns the cleaned buffer with the `!!ERR!!`
line kept (and no `!!EOO!!` or `!!JSONDecodeError!!`), and with a progress
callback present the callback is invoked with the literal `!!ERR!!`
token. -/
theorem C2_err_retained_eoo_stripped :
    commandDataStep false false false [] s2Stream =
      ⟨[], false, CmdRes.errHalt (PyOutM.commandWithResponse
        ("Traceback: ZeroDivisionError\n!!ERR!!\n".toList))⟩ ∧
    containsSub ("Traceback: ZeroDivisionError\n!!ERR!!\n".toList) EOOtok =
      false ∧
    containsSub ("Traceback: ZeroDivisionError\n!!ERR!!\n".toList)
      JSONDECODEtok = false ∧
    containsSub ("Traceback: ZeroDivisionError\n!!ERR!!\n".toList) ERRtok =
      true ∧
    commandDataStep false false true [] s2Stream =
      ⟨[ERRtok], false, CmdRes.errHalt (PyOutM.commandResult true)⟩ := by
  decide

/-- C3: the project-upload chain uploads exactly the local paths whose
remote hash entry is absent or different, each joined with the project
root, and resolves the sentinel `None` when the diff is empty. The first
conjunct characterizes `uploadProject` by the spec's diff for any hash
caches with distinct keys; the remaining conjuncts are the claim's
concrete instances. -/
theorem C3_uploadProject_diff :
    (∀ (localHashes remoteHashes : List (List Char × List Char))
        (projectRoot : List Char),
      (localHashes.map Prod.fst).Nodup →
      uploadProject localHashes remoteHashes projectRoot =
        (if specDiffFiles localHashes remoteHashes = [] then
          UploadProjectAction.noneResult
        else
          UploadProjectAction.uploadFiles
            ((specDiffFiles localHashes remoteHashes).map
              (pathJoin projectRoot)) [':'] projectRoot)) ∧
    uploadProject [("a".toList, "h1".toList), ("b".toList, "h2".toList)]
        [("a".toList, "h1".toList), ("b".toList, "hx".toList)]
        ("/r".toList) =
      UploadProjectAction.uploadFiles [("/r/b".toList)] [':'] ("/r".toList) ∧
    uploadProject [("a".toList, "h1".toList), ("b".toList, "h2".toList)]
        [("b".toList, "hx".toList)] ("/r".toList) =
      UploadProjectAction.uploadFiles [("/r/a".toList), ("/r/b".toList)]
        [':'] ("/r".toList) ∧
    uploadProject [("a".toList, "h1".toList)] [("a".toList, "h1".toList)]
        ("/r".toList) = UploadProjectAction.noneResult := by
  refine ⟨?_, by decide, by decide, by decide⟩
  intro l remote root hnd
  unfold uploadProject
  rw [uploadProject_filter_eq l remote hnd]
  cases hsp : specDiffFiles l remote with
  | nil => simp [hsp]
  | cons a t => simp [hsp]

/-- C3 witness: the characterization applied to a concrete one-entry cache
with an empty remote side. -/
theorem C3_witness :
    uploadProject [("a".toList, "h1".toList)] [] ("/r".toList) =
      (if specDiffFiles [("a".toList, "h1".toList)] [] = [] then
        UploadProjectAction.noneResult
      else
        UploadProjectAction.uploadFiles
          ((specDiffFiles [("a".toList, "h1".toList)] []).map
            (pathJoin ("/r".toList))) [':'] ("/r".toList)) :=
  C3_uploadProject_diff.1 _ _ _ (by decide)

/-- C4: on `!!EOO!!` every fs-mutation operation resolves
`status = (buffer has no !!ERR!!) OR (buffer contains "EXIST")`, and the
stream "mkdir: EXIST\n!!ERR!!\n!!EOO!!" yields a success status. -/
theorem C4_fsop_exist_carveout :
    (∀ buf : List Char,
      fsOpFinish buf = PyOutM.status
        (!containsSub buf ERRtok || containsSub buf ("EXIST".toList))) ∧
    fsOpDataStep [] ("mkdir: EXIST\n!!ERR!!\n!!EOO!!".toList) =
      CmdRes.finished (PyOutM.status true) := by
  refine ⟨?_, by decide⟩
  intro buf
  unfold fsOpFinish
  cases h : containsSub buf ERRtok <;> simp [h]

/-- The split described by the claim's words: cut the line at its first
space into a size field and a path field (the remainder, spaces
included). Used only to compare the claim against the source, which splits
on every space. -/
def splitOnFirstSpace (line : List Char) : List (List Char) :=
  match line.dropWhile (fun c => c != ' ') with
  | [] => [line.takeWhile (fun c => c != ' ')]
  | _ :: t => [line.takeWhile (fun c => c != ' '), t]

/-- C5 counterexample: the line "0 a b" yields exactly the two fields
["0", "a b"] under the claim's split-on-first-space reading, so the claim
predicts a listing entry with path "a b"; the source splits on every space
(three fields) and skips the line, producing an empty listing. -/
theorem C5_counterexample_space_in_path :
    listContentsDataStep [] ("0 a b\n!!EOO!!\n".toList) =
      CmdRes.finished (PyOutM.listContents []) ∧
    splitOnFirstSpace (trimStartL ("0 a b".toList)) =
      ["0".toList, "a b".toList] := by decide

/-- C5 amended: `listContents` splits the buffer (minus the terminator)
into CR-stripped lines, left-trims each line and splits it on every space,
keeps exactly the lines with two fields (paths containing spaces are
skipped), and marks directories by a trailing slash - as shown on the
claim's concrete stream and by the two per-line characterizations. -/
theorem C5_list_parse :
    listContentsDataStep [] ("  42 foo\n   0 bar/\n!!EOO!!\n".toList) =
      CmdRes.finished (PyOutM.listContents
        [⟨"foo".toList, false, some 42⟩, ⟨"bar/".toList, true, some 0⟩]) ∧
    (∀ (line sz p : List Char),
      splitOnChar ' ' (trimStartL line) = [sz, p] →
      parseListLine line = some ⟨p, endsWithL p ['/'], jsParseInt sz⟩) ∧
    (∀ line : List Char,
      (splitOnChar ' ' (trimStartL line)).length ≠ 2 →
      parseListLine line = none) := by
  refine ⟨by decide, ?_, ?_⟩
  · intro line sz p h
    unfold parseListLine
    rw [h]
  · intro line h
    unfold parseListLine
    rcases hs : splitOnChar ' ' (trimStartL line) with _ | ⟨a, _ | ⟨b, _ | ⟨c, t3⟩⟩⟩
    · rfl
    · rfl
    · exact absurd (by rw [hs]; rfl) h
    · rfl

/-- C5 witness: the two-field characterization applied to the line
"  42 foo". -/
theorem C5_witness :
    parseListLine ("  42 foo".toList) =
      some ⟨"foo".toList, endsWithL ("foo".toList) ['/'],
        jsParseInt ("42".toList)⟩ :=
  C5_list_parse.2.1 _ _ _ (by decide)

/-- A tab-completion stream whose cleaned buffer contains the
`!!SIMPLE_AUTO_COMP!!` token but does not start with it. -/
def c6Stream : List Char := "x!!SIMPLE_AUTO_COMP!!\n!!EOO!!".toList

/-- C6 counterexample: the cleaned buffer "x!!SIMPLE_AUTO_COMP!!\n" does
not start with the token, so the claim demands isSimple = false and the
cleaned buffer as completion; the source tests `includes`, reports
isSimple = true, and slices off the first 20 characters, returning the
garbage completion "!". -/
theorem C6_counterexample_not_prefix :
    commandDataStep true false false [] c6Stream =
      ⟨[], false, CmdRes.finished (PyOutM.tabComp true ("!".toList))⟩ ∧
    startsWithL (cleanBuffer c6Stream) SIMPLEtok = false := by decide

/-- C6 amended: on `!!EOO!!` the tab-completion result sets
isSimple = (cleaned buffer CONTAINS the token anywhere); if so the
completion is the cleaned buffer minus its first 20 characters with the
FIRST newline removed, otherwise the cleaned buffer itself; the claim's
concrete stream still yields isSimple = true with completion
"uos.listdir". -/
theorem C6_tabcomp :
    (∀ prev data : List Char,
      containsSub data ['\n'] = true →
      containsSub (prev ++ data) SENTINELtok = false →
      containsSub data ERRtok = false →
      containsSub data EOOtok = true →
      commandDataStep true false false prev data =
        ⟨[], false, CmdRes.finished (PyOutM.tabComp
          (containsSub (cleanBuffer (prev ++ data)) SIMPLEtok)
          (if containsSub (cleanBuffer (prev ++ data)) SIMPLEtok then
            removeFirst ['\n'] ((cleanBuffer (prev ++ data)).drop 20)
          else cleanBuffer (prev ++ data)))⟩) ∧
    commandDataStep true false false []
        ("!!SIMPLE_AUTO_COMP!!uos.listdir\n!!EOO!!".toList) =
      ⟨[], false, CmdRes.finished
        (PyOutM.tabComp true ("uos.listdir".toList))⟩ := by
  refine ⟨?_, by decide⟩
  intro prev data h1 h2 h3 h4
  unfold commandDataStep commandAfterChecks commandEooFinish
  simp [h1, h2, h3, h4]

/-- C6 witness: the amended parse applied to the claim's concrete
stream. -/
theorem C6_witness :
    commandDataStep true false false []
        ("!!SIMPLE_AUTO_COMP!!uos.listdir\n!!EOO!!".toList) =
      ⟨[], false, CmdRes.finished (PyOutM.tabComp
        (containsSub
          (cleanBuffer ([] ++ "!!SIMPLE_AUTO_COMP!!uos.listdir\n!!EOO!!".toList))
          SIMPLEtok)
        (if containsSub
            (cleanBuffer ([] ++ "!!SIMPLE_AUTO_COMP!!uos.listdir\n!!EOO!!".toList))
            SIMPLEtok then
          removeFirst ['\n']
            ((cleanBuffer
              ([] ++ "!!SIMPLE_AUTO_COMP!!uos.listdir\n!!EOO!!".toList)).drop 20)
        else
          cleanBuffer
            ([] ++ "!!SIMPLE_AUTO_COMP!!uos.listdir\n!!EOO!!".toList)))⟩ :=
  C6_tabcomp.1 [] _ (by decide) (by decide) (by decide) (by decide)

/-- C7 counterexample: over the chunk sequence ["COM3\n", "!!EOO!!\n"],
whose concatenation contains `!!EOO!!`, the promise rejects (the first
chunk settles it with `Error("Invalid response")`), so `getPorts` is not
reject-free over chunked streams. -/
theorem C7_counterexample_rejects :
    getPortsRun [("COM3\n".toList), ("!!EOO!!\n".toList)] =
      ScanOutcome.rejected ∧
    containsSub (("COM3\n".toList) ++ ("!!EOO!!\n".toList)) EOOtok =
      true := by decide

/-- C7 amended: `getPorts` is settled entirely by the first stdout chunk:
it resolves with the ports parsed from that single chunk when the chunk
contains `!!EOO!!`, and rejects otherwise; later chunks cannot change the
outcome. A single chunk carrying the whole response resolves as the spec
describes. -/
theorem C7_scanPorts_first_chunk :
    (∀ (first : List Char) (rest : List (List Char)),
      getPortsRun (first :: rest) =
        (if containsSub first EOOtok then
          ScanOutcome.resolved (parsePortsChunk first)
        else ScanOutcome.rejected)) ∧
    getPortsRun [("COM3\nCOM4\n!!EOO!!\n".toList)] =
      ScanOutcome.resolved [("COM3".toList), ("COM4".toList)] := by
  refine ⟨?_, by decide⟩
  intro first rest
  unfold getPortsRun
  rw [List.foldl_cons]
  by_cases h : containsSub first EOOtok
  · rw [show getPortsStep ScanOutcome.pendingScan first =
        ScanOutcome.resolved (parsePortsChunk first) from by
      simp [getPortsStep, h]]
    rw [getPortsStep_absorb rest _ (by simp), if_pos h]
  · rw [show getPortsStep ScanOutcome.pendingScan first =
        ScanOutcome.rejected from by simp [getPortsStep, h]]
    rw [getPortsStep_absorb rest _ (by simp), if_neg h]

/-- C8 counterexample: the valid civil time 0500-01-01 00:00:00 renders
with a three-digit year, the regex requires exactly four digits, and the
round trip returns null instead of the original time. -/
theorem C8_counterexample_year500 :
    rp2DatetimeToDate (dateToRp2Datetime ⟨500, 1, 1, 0, 0, 0, 0⟩) =
      none := by decide

/-- C8 amended: for every civil time whose year has exactly four digits
(1000-9999) and whose remaining fields are in range, parsing the rendered
tuple returns exactly the constructor call
`new Date(year, month - 1, day, hour, minute, second)`, i.e. the original
time truncated to seconds; outside that year range the regex rejects the
rendering. -/
theorem C8_roundtrip (t : CivilTime)
    (hy1 : 1000 ≤ t.year) (hy2 : t.year ≤ 9999)
    (hmo1 : 1 ≤ t.month) (hmo2 : t.month ≤ 12)
    (hd1 : 1 ≤ t.day) (hd2 : t.day ≤ 31)
    (hh : t.hour ≤ 23) (hmi : t.minute ≤ 59) (hs : t.second ≤ 59) :
    rp2DatetimeToDate (dateToRp2Datetime t) =
      some ⟨t.year, t.month - 1, t.day, t.hour, t.minute, t.second⟩ :=
  rp2DatetimeToDate_render t hy1 hy2 hmo1 hmo2 hd1 hd2 hh hmi hs

/-- C8 witness: the round trip evaluated at 2023-06-15 12:34:56.789. -/
theorem C8_witness :
    rp2DatetimeToDate (dateToRp2Datetime ⟨2023, 6, 15, 12, 34, 56, 789⟩) =
      some ⟨2023, 5, 15, 12, 34, 56⟩ :=
  C8_roundtrip ⟨2023, 6, 15, 12, 34, 56, 789⟩ (by decide) (by decide)
    (by decide) (by decide) (by decide) (by decide) (by decide) (by decide)
    (by decide)

/-- An RTC buffer carrying the tuple February 31, which is not a real
calendar date but passes the source's field bounds. -/
def feb31Buf : List Char := "(2023, 2, 31, 2, 0, 0, 0, 0)!!EOO!!".toList

/-- C9 counterexample: the tuple (2023, 2, 31, ...) does not denote a real
calendar date-time, yet `getRtcTime` returns a non-null time (the
constructor call `new Date(2023, 1, 31, 0, 0, 0)`, which JS normalizes to
March 3), contradicting the claim that every invalid tuple yields
`time = null`. -/
theorem C9_counterexample_feb31 :
    getRtcTimeFinish feb31Buf =
      PyOutM.rtcTime (some ⟨2023, 1, 31, 0, 0, 0⟩) ∧
    containsSub feb31Buf ERRtok = false ∧
    PyOutM.rtcTime (some (⟨2023, 1, 31, 0, 0, 0⟩ : Rp2CtorArgs)) ≠
      PyOutM.rtcTime none := by decide

/-- C9 amended: on `!!EOO!!`, a buffer containing `!!ERR!!` yields
`time = null`; otherwise the stripped buffer is parsed, and malformed text
or a tuple violating the source's bounds (month 1-12, day 1-31, hour 0-23,
minute 0-59, second 0-59) yields null - every non-null result satisfies
those bounds - but an in-bounds tuple that is not a real calendar date
(such as February 31) yields a non-null, normalized Date. -/
theorem C9_getRtcTime :
    (∀ buf : List Char, containsSub buf ERRtok = true →
      getRtcTimeFinish buf = PyOutM.rtcTime none) ∧
    (∀ (s : List Char) (args : Rp2CtorArgs),
      rp2DatetimeToDate s = some args →
      1 ≤ args.monthIndexArg + 1 ∧ args.monthIndexArg + 1 ≤ 12 ∧
      1 ≤ args.dayArg ∧ args.dayArg ≤ 31 ∧ args.hourArg ≤ 23 ∧
      args.minuteArg ≤ 59 ∧ args.secondArg ≤ 59) ∧
    getRtcTimeFinish ("garbage!!EOO!!".toList) = PyOutM.rtcTime none ∧
    getRtcTimeFinish ("(2023, 13, 1, 0, 0, 0, 0, 0)!!EOO!!".toList) =
      PyOutM.rtcTime none := by
  refine ⟨?_, ?_, by decide, by decide⟩
  · intro buf h
    unfold getRtcTimeFinish
    rw [if_pos h]
  · intro s args h
    unfold rp2DatetimeToDate at h
    cases hfs : (splitOnChar '\n' s).findSome? matchRp2Line with
    | none => rw [hfs] at h; cases h
    | some v =>
      rw [hfs] at h
      obtain ⟨y, mo, d, wd, hh, mi, ss⟩ := v
      rw [ite_eq_iff] at h
      rcases h with ⟨hc, heq⟩ | ⟨hc, heq⟩
      · cases heq
      · cases heq
        dsimp only
        simp only [Bool.or_eq_true, decide_eq_true_eq, not_or] at hc
        omega

/-- C9 witness: the `!!ERR!!` branch applied to a concrete error
buffer. -/
theorem C9_witness :
    getRtcTimeFinish ("rtc read fail\n!!ERR!!\n!!EOO!!".toList) =
      PyOutM.rtcTime none :=
  C9_getRtcTime.1 _ (by decide)

/-- C10: `runFile` with a non-existent local file returns the sentinel
`None` immediately and leaves the session untouched - nothing is enqueued,
no waiter is parked, nothing is written to the helper - for every session
state, connected or not. -/
theorem C10_runFile_missing_file :
    ∀ s : Session, runFileCall s false =
      (FacadeCall.immediate PyOutM.none, s) := by
  intro s
  unfold runFileCall
  rw [if_pos (by simp)]

end PySerial
